import Mathlib

/-!
Verification of the Librarian catalog/deletion core.

This file embeds, as executable Lean definitions, the parts of the
Librarian server relevant to the deletion safety interlock
(File.delete_instances, set_one_file_deletion_policy, DeletionPolicy),
the observation-id inference (infer_file_obsid), the file record
export/import pair (File.to_dict / File.from_dict), and the rsync
transfer manager (RsyncAsyncTransferManager.transfer / batch_transfer).
The embedding follows librarian_server/file.py (the newer of the two
server snapshots; the older snapshot is a behavioral subset on the
modelled paths) and hera_librarian/async_transfers/rsync.py.

External effects are made explicit parameters:
  - the per-instance physical store deletion is a Bool-valued oracle
    (true = store._delete returns, false = it raises);
  - the final database commit outcome is a Bool (false = SQLAlchemyError,
    which triggers session rollback);
  - the SQL LIKE filter used by infer_file_obsid is implemented by an
    executable matcher with the standard wildcard semantics of LIKE.
-/

namespace Librarian

/-- Integer value of DeletionPolicy.DISALLOWED (file.py DeletionPolicy). -/
def DeletionPolicy.DISALLOWED : Nat := 0

/-- Integer value of DeletionPolicy.ALLOWED (file.py DeletionPolicy). -/
def DeletionPolicy.ALLOWED : Nat := 1

/-- DeletionPolicy.parse_safe: recognized strings map to their constant,
anything else is coerced to DISALLOWED (with a logged warning, not an error). -/
def DeletionPolicy.parse_safe (text : String) : Nat :=
  if text = "disallowed" then DeletionPolicy.DISALLOWED
  else if text = "allowed" then DeletionPolicy.ALLOWED
  else DeletionPolicy.DISALLOWED

/-- A FileInstance row: store id, parent_dirs, file name, and the integer
deletion_policy column (0 = disallowed, 1 = allowed; the column is a plain
integer, so other values are representable and are treated as not-ALLOWED). -/
structure FileInstance where
  store : Nat
  parent_dirs : String
  name : String
  deletion_policy : Nat
deriving DecidableEq, Repr

/-- A FileEvent row, with the payload fields used by the modelled events
(store_name is determined by the store id via the Store table, so the id
stands in for it; new_policy is present only on policy-change events). -/
structure FileEvent where
  name : String
  event_type : String
  store : Nat
  parent_dirs : String
  new_policy : Option Nat
deriving DecidableEq, Repr

/-- File.make_instance_deletion_event: a delete_instance event carrying the
store and parent_dirs of the removed instance. The file name equals the
instance name (foreign key). -/
def make_instance_deletion_event (fileName : String) (inst : FileInstance) : FileEvent :=
  ⟨fileName, "delete_instance", inst.store, inst.parent_dirs, none⟩

/-- Event added by set_one_file_deletion_policy
(type instance_deletion_policy_changed, payload store_name / parent_dirs /
new_policy). -/
def make_policy_change_event (fileName : String) (inst : FileInstance) (pol : Nat) : FileEvent :=
  ⟨fileName, "instance_deletion_policy_changed", inst.store, inst.parent_dirs, some pol⟩

/-- The database state associated with one File: its FileInstance rows (in
iteration order of file.instances) and its FileEvent rows. -/
structure FileState where
  instances : List FileInstance
  events : List FileEvent
deriving DecidableEq, Repr

/-- The counts dictionary returned by File.delete_instances. -/
structure DeleteCounts where
  n_deleted : Nat
  n_kept : Nat
  n_error : Nat
deriving DecidableEq, Repr

/-- Kinds of ServerError raised by the modelled code paths. -/
inductive ServerErrorKind where
  | badDeletionMode
  | dbConsistencyBroken
  | noInstances
  | commitFailed
  | refuseInference
  | weirdName
  | ambiguousObsids
  | unknownInferenceMode
  | missingArg
  | badArgType
  | badName
  | badSize
  | badMd5
deriving DecidableEq, Repr

/-- The restrict_to_store test of delete_instances: true when a filter is
given and the instance lives on a different store
(restrict_to_store is not None and inst.store != restrict_to_store.id). -/
def restrictMismatch (restrict : Option Nat) (inst : FileInstance) : Bool :=
  match restrict with
  | none => false
  | some sid => inst.store != sid

/-- An instance reaches the physical-deletion attempt exactly when its policy
is ALLOWED and it passes the optional store filter. -/
def isAttempted (restrict : Option Nat) (inst : FileInstance) : Bool :=
  (inst.deletion_policy == DeletionPolicy.ALLOWED) && !(restrictMismatch restrict inst)

/-- Accumulated effect of the per-instance loop of File.delete_instances:
rows left in the session, events added to the session, instances on which
store._delete was invoked, and the three counters. -/
structure LoopResult where
  rows : List FileInstance
  newEvents : List FileEvent
  physInvoked : List FileInstance
  counts : DeleteCounts
deriving Repr

/-- Concatenation of per-instance loop effects, in iteration order. -/
def combineLoop (a b : LoopResult) : LoopResult :=
  ⟨a.rows ++ b.rows, a.newEvents ++ b.newEvents, a.physInvoked ++ b.physInvoked,
   ⟨a.counts.n_deleted + b.counts.n_deleted,
    a.counts.n_kept + b.counts.n_kept,
    a.counts.n_error + b.counts.n_error⟩⟩

/-- One iteration of the File.delete_instances loop, following the source
order of checks: policy interlock first, then the store filter (both count
as kept), then the noop short-circuit, then the physical delete through the
store (storeDelete false = the backend raised; the session is untouched and
n_error is bumped); on success the deletion event is added and the row is
deleted from the session. -/
def deleteStep (fileName : String) (noop : Bool) (restrict : Option Nat)
    (storeDelete : FileInstance → Bool) (inst : FileInstance) : LoopResult :=
  if inst.deletion_policy != DeletionPolicy.ALLOWED then
    ⟨[inst], [], [], ⟨0, 1, 0⟩⟩
  else if restrictMismatch restrict inst then
    ⟨[inst], [], [], ⟨0, 1, 0⟩⟩
  else if noop then
    ⟨[inst], [], [], ⟨1, 0, 0⟩⟩
  else if storeDelete inst then
    ⟨[], [make_instance_deletion_event fileName inst], [inst], ⟨1, 0, 0⟩⟩
  else
    ⟨[inst], [], [inst], ⟨0, 0, 1⟩⟩

/-- The full per-instance loop of File.delete_instances. -/
def deleteLoop (fileName : String) (noop : Bool) (restrict : Option Nat)
    (storeDelete : FileInstance → Bool) : List FileInstance → LoopResult
  | [] => ⟨[], [], [], ⟨0, 0, 0⟩⟩
  | inst :: rest =>
      combineLoop (deleteStep fileName noop restrict storeDelete inst)
        (deleteLoop fileName noop restrict storeDelete rest)

/-- Result of one call to File.delete_instances: the returned value (counts,
or the raised ServerError), the persisted database state after the call
(after commit, or after rollback on commit failure), the instances whose
physical deletion was invoked on the store backend, and whether a database
commit was issued. -/
structure DeleteOutcome where
  result : Except ServerErrorKind DeleteCounts
  state : FileState
  physInvoked : List FileInstance
  commitAttempted : Bool
deriving Repr

/-- File.delete_instances (librarian_server/file.py). mode standard runs the
loop and commits (a commit failure rolls the session back and raises the
DB/FS-consistency ServerError); mode noop runs the loop without mutating the
session and issues no commit; any other mode raises immediately. -/
def File.delete_instances (fileName : String) (st : FileState) (mode : String)
    (restrict : Option Nat) (storeDelete : FileInstance → Bool) (commitOk : Bool) :
    DeleteOutcome :=
  if mode = "standard" then
    let r := deleteLoop fileName false restrict storeDelete st.instances
    if commitOk then
      ⟨Except.ok r.counts, ⟨r.rows, st.events ++ r.newEvents⟩, r.physInvoked, true⟩
    else
      ⟨Except.error ServerErrorKind.dbConsistencyBroken, st, r.physInvoked, true⟩
  else if mode = "noop" then
    let r := deleteLoop fileName true restrict storeDelete st.instances
    ⟨Except.ok r.counts, ⟨r.rows, st.events ++ r.newEvents⟩, r.physInvoked, false⟩
  else
    ⟨Except.error ServerErrorKind.badDeletionMode, st, [], false⟩

/-- One deletion call in a sequence: its mode, store filter, backend
behavior, and commit outcome. -/
structure DeleteCall where
  mode : String
  restrict : Option Nat
  storeDelete : FileInstance → Bool
  commitOk : Bool

/-- The persisted state after a sequence of File.delete_instances calls. -/
def runDeletes (fileName : String) : FileState → List DeleteCall → FileState
  | st, [] => st
  | st, c :: rest =>
      runDeletes fileName
        (File.delete_instances fileName st c.mode c.restrict c.storeDelete c.commitOk).state rest

/-- An instance protected by the safety interlock: its deletion_policy is
not ALLOWED. -/
def isProtected (inst : FileInstance) : Bool :=
  inst.deletion_policy != DeletionPolicy.ALLOWED

end Librarian

namespace Librarian

/-- Closed form of the delete_instances loop in standard mode: rows with a
successful physical delete are removed and get an event; every attempted
instance reaches the store backend; the counters count successes, kept
instances, and backend failures respectively. -/
theorem deleteLoop_standard_eq (fileName : String) (restrict : Option Nat)
    (storeDelete : FileInstance → Bool) (l : List FileInstance) :
    deleteLoop fileName false restrict storeDelete l =
      ⟨l.filter (fun i => !(isAttempted restrict i && storeDelete i)),
       (l.filter (fun i => isAttempted restrict i && storeDelete i)).map
         (make_instance_deletion_event fileName),
       l.filter (fun i => isAttempted restrict i),
       ⟨(l.filter (fun i => isAttempted restrict i && storeDelete i)).length,
        (l.filter (fun i => !(isAttempted restrict i))).length,
        (l.filter (fun i => isAttempted restrict i && !(storeDelete i))).length⟩⟩ := by
  induction l with
  | nil => rfl
  | cons i rest ih =>
      by_cases h1 : i.deletion_policy = DeletionPolicy.ALLOWED
      · by_cases h2 : restrictMismatch restrict i = true
        · simp [deleteLoop, deleteStep, combineLoop, ih, isAttempted, h1, h2,
            List.filter_cons, Nat.add_comm]
        · by_cases h3 : storeDelete i = true
          · simp [deleteLoop, deleteStep, combineLoop, ih, isAttempted, h1, h2, h3,
              List.filter_cons, Nat.add_comm]
          · simp [deleteLoop, deleteStep, combineLoop, ih, isAttempted, h1, h2, h3,
              List.filter_cons, Nat.add_comm]
      · simp [deleteLoop, deleteStep, combineLoop, ih, isAttempted, h1,
          List.filter_cons, Nat.add_comm]

/-- Closed form of the delete_instances loop in noop mode: the session is
untouched, nothing reaches the store backend, and instances are only
classified. -/
theorem deleteLoop_noop_eq (fileName : String) (restrict : Option Nat)
    (storeDelete : FileInstance → Bool) (l : List FileInstance) :
    deleteLoop fileName true restrict storeDelete l =
      ⟨l, [], [],
       ⟨(l.filter (fun i => isAttempted restrict i)).length,
        (l.filter (fun i => !(isAttempted restrict i))).length,
        0⟩⟩ := by
  induction l with
  | nil => rfl
  | cons i rest ih =>
      by_cases h1 : i.deletion_policy = DeletionPolicy.ALLOWED
      · by_cases h2 : restrictMismatch restrict i = true
        · simp [deleteLoop, deleteStep, combineLoop, ih, isAttempted, h1, h2,
            List.filter_cons, Nat.add_comm]
        · simp [deleteLoop, deleteStep, combineLoop, ih, isAttempted, h1, h2,
            List.filter_cons, Nat.add_comm]
      · simp [deleteLoop, deleteStep, combineLoop, ih, isAttempted, h1,
          List.filter_cons, Nat.add_comm]

end Librarian

namespace Librarian

/-- Filtering by a weaker predicate after a stronger one changes nothing. -/
theorem filter_filter_of_imp {α : Type} (p q : α → Bool)
    (h : ∀ a, p a = true → q a = true) (l : List α) :
    (l.filter q).filter p = l.filter p := by
  induction l with
  | nil => rfl
  | cons a rest ih =>
      by_cases hp : p a = true
      · have hq := h a hp
        simp [List.filter_cons, hp, hq, ih]
      · by_cases hq : q a = true
        · simp [List.filter_cons, hp, hq, ih]
        · simp [List.filter_cons, hp, hq, ih]

/-- Filtering by a predicate disjoint from the first filter yields nothing. -/
theorem filter_filter_of_excl {α : Type} (p q : α → Bool)
    (h : ∀ a, p a = true → q a = false) (l : List α) :
    (l.filter q).filter p = [] := by
  induction l with
  | nil => rfl
  | cons a rest ih =>
      by_cases hp : p a = true
      · have hq := h a hp
        simp [List.filter_cons, hp, hq, ih]
      · by_cases hq : q a = true
        · simp [List.filter_cons, hp, hq, ih]
        · simp [List.filter_cons, hq, ih]

/-- A pointwise-stronger predicate keeps fewer elements. -/
theorem length_filter_mono {α : Type} (p q : α → Bool)
    (h : ∀ a, p a = true → q a = true) (l : List α) :
    (l.filter p).length ≤ (l.filter q).length := by
  induction l with
  | nil => exact Nat.le_refl 0
  | cons a rest ih =>
      by_cases hp : p a = true
      · have hq := h a hp
        simp [List.filter_cons, hp, hq]
        exact ih
      · by_cases hq : q a = true
        · simp [List.filter_cons, hp, hq]
          exact Nat.le_succ_of_le ih
        · simp [List.filter_cons, hp, hq]
          exact ih

/-- The three deletion counters partition the instance list. -/
theorem length_filter_partition {α : Type} (att sd : α → Bool) (l : List α) :
    (l.filter (fun i => att i && sd i)).length
      + (l.filter (fun i => !(att i))).length
      + (l.filter (fun i => att i && !(sd i))).length = l.length := by
  induction l with
  | nil => rfl
  | cons a rest ih =>
      by_cases ha : att a = true
      · by_cases hs : sd a = true
        · simp [List.filter_cons, ha, hs]
          omega
        · simp [List.filter_cons, ha, hs]
          omega
      · simp [List.filter_cons, ha]
        omega

/-- The two counters of noop mode partition the instance list. -/
theorem length_filter_partition_two {α : Type} (att : α → Bool) (l : List α) :
    (l.filter (fun i => att i)).length + (l.filter (fun i => !(att i))).length = l.length := by
  induction l with
  | nil => rfl
  | cons a rest ih =>
      by_cases ha : att a = true
      · simp [List.filter_cons, ha]
        omega
      · simp [List.filter_cons, ha]
        omega

/-- A policy-protected instance never reaches the attempt stage. -/
theorem protected_not_attempted (restrict : Option Nat) (i : FileInstance)
    (h : isProtected i = true) : isAttempted restrict i = false := by
  simp [isProtected] at h
  simp [isAttempted, h]

/-- One delete_instances call, in any mode and with any backend and commit
behavior, leaves the multiset of protected rows intact. -/
theorem delete_state_protected (fileName : String) (st : FileState) (mode : String)
    (restrict : Option Nat) (sd : FileInstance → Bool) (ck : Bool) :
    ((File.delete_instances fileName st mode restrict sd ck).state.instances.filter isProtected)
      = st.instances.filter isProtected := by
  by_cases hm : mode = "standard"
  · subst hm
    cases ck
    · rfl
    · simp [File.delete_instances, deleteLoop_standard_eq]
      apply List.filter_congr
      intro a _
      by_cases hp : isProtected a = true
      · have h2 := protected_not_attempted restrict a hp
        simp [hp, h2]
      · simp only [Bool.not_eq_true] at hp
        simp [hp]
  · by_cases hn : mode = "noop"
    · subst hn
      simp [File.delete_instances, deleteLoop_noop_eq]
    · simp [File.delete_instances, hm, hn]

/-- Any sequence of delete_instances calls leaves the multiset of protected
rows intact. -/
theorem runDeletes_protected (fileName : String) :
    ∀ (calls : List DeleteCall) (st : FileState),
      ((runDeletes fileName st calls).instances.filter isProtected)
        = st.instances.filter isProtected := by
  intro calls
  induction calls with
  | nil => intro st; rfl
  | cons c rest ih =>
      intro st
      rw [runDeletes, ih, delete_state_protected]

end Librarian

namespace Librarian

/-- Instances invoked on the store backend never include a protected one. -/
theorem delete_phys_protected (fileName : String) (st : FileState) (mode : String)
    (restrict : Option Nat) (sd : FileInstance → Bool) (ck : Bool) :
    (File.delete_instances fileName st mode restrict sd ck).physInvoked.filter isProtected
      = [] := by
  by_cases hm : mode = "standard"
  · subst hm
    have hph : (File.delete_instances fileName st "standard" restrict sd ck).physInvoked
        = st.instances.filter (fun i => isAttempted restrict i) := by
      cases ck
      · simp [File.delete_instances, deleteLoop_standard_eq]
      · simp [File.delete_instances, deleteLoop_standard_eq]
    rw [hph]
    exact filter_filter_of_excl isProtected _
      (fun a ha => protected_not_attempted restrict a ha) st.instances
  · by_cases hn : mode = "noop"
    · subst hn
      simp [File.delete_instances, deleteLoop_noop_eq]
    · simp [File.delete_instances, hm, hn]

/-- Whenever delete_instances returns counts, n_kept is at least the number
of protected instances. -/
theorem delete_kept_lower_bound (fileName : String) (st : FileState) (mode : String)
    (restrict : Option Nat) (sd : FileInstance → Bool) (ck : Bool) :
    ∀ c, (File.delete_instances fileName st mode restrict sd ck).result = Except.ok c →
      (st.instances.filter isProtected).length ≤ c.n_kept := by
  intro c h
  by_cases hm : mode = "standard"
  · subst hm
    cases ck
    · simp [File.delete_instances] at h
    · simp [File.delete_instances, deleteLoop_standard_eq] at h
      rw [← h]
      apply length_filter_mono
      intro a ha
      have h2 := protected_not_attempted restrict a ha
      simp [h2]
  · by_cases hn : mode = "noop"
    · subst hn
      simp [File.delete_instances, deleteLoop_noop_eq] at h
      rw [← h]
      apply length_filter_mono
      intro a ha
      have h2 := protected_not_attempted restrict a ha
      simp [h2]
    · simp [File.delete_instances, hm, hn] at h

end Librarian

namespace Librarian

/-- Claim C1: for every call to File.delete_instances (any mode, any store
filter, any backend or commit behavior) a protected instance (one whose
deletion_policy is not ALLOWED) never reaches the physical store deletion,
its row survives and is counted in n_kept whenever counts are returned,
and over any sequence of deletion calls the multiset of protected rows is
exactly preserved. -/
theorem delete_never_removes_disallowed (fileName : String) (st : FileState)
    (calls : List DeleteCall) (mode : String) (restrict : Option Nat)
    (sd : FileInstance → Bool) (ck : Bool) :
    ((runDeletes fileName st calls).instances.filter isProtected
        = st.instances.filter isProtected)
    ∧ ((File.delete_instances fileName st mode restrict sd ck).physInvoked.filter isProtected
        = [])
    ∧ (∀ c, (File.delete_instances fileName st mode restrict sd ck).result = Except.ok c →
        (st.instances.filter isProtected).length ≤ c.n_kept) :=
  ⟨runDeletes_protected fileName calls st,
   delete_phys_protected fileName st mode restrict sd ck,
   delete_kept_lower_bound fileName st mode restrict sd ck⟩

/-- Closed-input instantiation of delete_never_removes_disallowed: one
allowed and one disallowed instance, standard mode, all backend deletes
succeed; the disallowed row survives and n_kept counts it. -/
theorem delete_never_removes_disallowed_witness :
    ((runDeletes "f" ⟨[⟨1, "d", "f", 1⟩, ⟨2, "d", "f", 0⟩], []⟩
        [⟨"standard", none, fun _ => true, true⟩]).instances.filter isProtected
      = ([⟨1, "d", "f", 1⟩, ⟨2, "d", "f", 0⟩] : List FileInstance).filter isProtected)
    ∧ ((File.delete_instances "f" ⟨[⟨1, "d", "f", 1⟩, ⟨2, "d", "f", 0⟩], []⟩ "standard"
          none (fun _ => true) true).physInvoked.filter isProtected = [])
    ∧ (([⟨1, "d", "f", 1⟩, ⟨2, "d", "f", 0⟩] : List FileInstance).filter isProtected).length
        ≤ (1 : Nat) := by
  have h := delete_never_removes_disallowed "f" ⟨[⟨1, "d", "f", 1⟩, ⟨2, "d", "f", 0⟩], []⟩
    [⟨"standard", none, fun _ => true, true⟩] "standard" none (fun _ => true) true
  exact ⟨h.1, h.2.1, h.2.2 ⟨1, 1, 0⟩ rfl⟩

/-- Claim C3: in standard mode, when the final database commit fails after
the deletion loop, delete_instances does not return its counts summary: the
session is rolled back (persisted state unchanged) and the distinct fatal
DB/FS-consistency ServerError is raised. -/
theorem delete_commit_failure_is_fatal (fileName : String) (st : FileState)
    (restrict : Option Nat) (sd : FileInstance → Bool) :
    (File.delete_instances fileName st "standard" restrict sd false).result
        = Except.error ServerErrorKind.dbConsistencyBroken
    ∧ (File.delete_instances fileName st "standard" restrict sd false).state = st := by
  constructor
  · rfl
  · rfl

/-- Claim C4: in noop mode, delete_instances never mutates persisted state:
the catalog (instances and events) is unchanged, the physical store delete
is never invoked, no commit is issued, and the call still returns the
classification counts. -/
theorem noop_mode_never_mutates (fileName : String) (st : FileState)
    (restrict : Option Nat) (sd : FileInstance → Bool) (ck : Bool) :
    (File.delete_instances fileName st "noop" restrict sd ck).state = st
    ∧ (File.delete_instances fileName st "noop" restrict sd ck).physInvoked = []
    ∧ (File.delete_instances fileName st "noop" restrict sd ck).commitAttempted = false
    ∧ (File.delete_instances fileName st "noop" restrict sd ck).result
        = Except.ok ⟨(st.instances.filter (fun i => isAttempted restrict i)).length,
                     (st.instances.filter (fun i => !(isAttempted restrict i))).length, 0⟩ := by
  obtain ⟨insts, evs⟩ := st
  refine ⟨?_, ?_, ?_, ?_⟩ <;> simp [File.delete_instances, deleteLoop_noop_eq]

/-- Claim C10: whenever delete_instances returns a counts summary, the three
counters partition the instances the file had at the start of the call, and
in noop mode n_error is 0. -/
theorem delete_counts_partition (fileName : String) (st : FileState) (mode : String)
    (restrict : Option Nat) (sd : FileInstance → Bool) (ck : Bool) (c : DeleteCounts)
    (h : (File.delete_instances fileName st mode restrict sd ck).result = Except.ok c) :
    c.n_deleted + c.n_kept + c.n_error = st.instances.length
    ∧ (mode = "noop" → c.n_error = 0) := by
  by_cases hm : mode = "standard"
  · subst hm
    cases ck
    · simp [File.delete_instances] at h
    · simp [File.delete_instances, deleteLoop_standard_eq] at h
      constructor
      · rw [← h]
        exact length_filter_partition (fun i => isAttempted restrict i) sd st.instances
      · intro hmode
        exact absurd hmode (by decide)
  · by_cases hn : mode = "noop"
    · subst hn
      simp [File.delete_instances, deleteLoop_noop_eq] at h
      constructor
      · rw [← h]
        simpa using length_filter_partition_two (fun i => isAttempted restrict i) st.instances
      · intro _
        rw [← h]
    · simp [File.delete_instances, hm, hn] at h

/-- Closed-input instantiation of delete_counts_partition: two instances,
one deleted and one kept, totals match. -/
theorem delete_counts_partition_witness :
    (1 : Nat) + 1 + 0 = 2 ∧ ("standard" = "noop" → (0 : Nat) = 0) := by
  have h := delete_counts_partition "f" ⟨[⟨1, "d", "f", 1⟩, ⟨2, "d", "f", 0⟩], []⟩
    "standard" none (fun _ => true) true ⟨1, 1, 0⟩ rfl
  exact h

end Librarian

namespace Librarian

/-- Claim C2: in standard mode, for an instance that reaches the physical
removal attempt (policy ALLOWED, store filter passed), the database row is
removed and the delete_instance event is recorded exactly when the store
backend delete succeeded; on a backend failure the row survives, no
deletion event for it appears, and the failure only increments n_error
while the loop processes the remaining instances. -/
theorem delete_row_iff_physical_success (fileName : String) (st : FileState)
    (restrict : Option Nat) (sd : FileInstance → Bool) (inst : FileInstance)
    (hmem : inst ∈ st.instances)
    (hatt : isAttempted restrict inst = true)
    (hnames : ∀ i ∈ st.instances, i.name = fileName) :
    (sd inst = true →
       inst ∉ (File.delete_instances fileName st "standard" restrict sd true).state.instances
       ∧ make_instance_deletion_event fileName inst
           ∈ (File.delete_instances fileName st "standard" restrict sd true).state.events)
    ∧ (sd inst = false →
       inst ∈ (File.delete_instances fileName st "standard" restrict sd true).state.instances
       ∧ (make_instance_deletion_event fileName inst ∉ st.events →
          make_instance_deletion_event fileName inst
            ∉ (File.delete_instances fileName st "standard" restrict sd true).state.events))
    ∧ (∀ c, (File.delete_instances fileName st "standard" restrict sd true).result
          = Except.ok c →
        c.n_error = (st.instances.filter (fun i => isAttempted restrict i && !(sd i))).length
        ∧ c.n_deleted = (st.instances.filter (fun i => isAttempted restrict i && sd i)).length) := by
  refine ⟨?_, ?_, ?_⟩
  · intro hsd
    constructor
    · simp [File.delete_instances, deleteLoop_standard_eq, List.mem_filter, hatt, hsd]
    · simp [File.delete_instances, deleteLoop_standard_eq, List.mem_append, List.mem_map]
      right
      exact ⟨inst, by simp [List.mem_filter, hmem, hatt, hsd], rfl⟩
  · intro hsd
    constructor
    · simp [File.delete_instances, deleteLoop_standard_eq, List.mem_filter, hmem, hatt, hsd]
    · intro hnotin
      simp [File.delete_instances, deleteLoop_standard_eq, List.mem_append, List.mem_map]
      constructor
      · exact hnotin
      · rintro j hjl hjp hjsd hjeq
        have hjname := hnames j hjl
        have hiname := hnames inst hmem
        have hipol : inst.deletion_policy = DeletionPolicy.ALLOWED := by
          have := hatt
          simp [isAttempted] at this
          exact this.1
        have hjpol : j.deletion_policy = DeletionPolicy.ALLOWED := by
          simp [isAttempted] at hjp
          exact hjp.1
        have hji : j = inst := by
          simp [make_instance_deletion_event, FileEvent.mk.injEq] at hjeq
          cases j
          cases inst
          simp_all
        rw [hji] at hjsd
        rw [hsd] at hjsd
        exact Bool.noConfusion hjsd
  · intro c h
    simp [File.delete_instances, deleteLoop_standard_eq] at h
    rw [← h]
    exact ⟨rfl, rfl⟩

/-- Closed-input instantiation of delete_row_iff_physical_success: two
allowed instances on different stores; the backend fails on store 1 and
succeeds on store 2. -/
theorem delete_row_iff_physical_success_witness :
    ((⟨1, "d", "f", 1⟩ : FileInstance)
        ∈ (File.delete_instances "f" ⟨[⟨1, "d", "f", 1⟩, ⟨2, "d", "f", 1⟩], []⟩ "standard"
            none (fun i => i.store == 2) true).state.instances)
    ∧ (make_instance_deletion_event "f" ⟨1, "d", "f", 1⟩
        ∉ (File.delete_instances "f" ⟨[⟨1, "d", "f", 1⟩, ⟨2, "d", "f", 1⟩], []⟩ "standard"
            none (fun i => i.store == 2) true).state.events)
    ∧ ((1 : Nat) = 1 ∧ (1 : Nat) = 1) := by
  have h := delete_row_iff_physical_success "f" ⟨[⟨1, "d", "f", 1⟩, ⟨2, "d", "f", 1⟩], []⟩
    none (fun i => i.store == 2) ⟨1, "d", "f", 1⟩ (by simp) (by decide)
    (by intro i hi; simp at hi; rcases hi with h1 | h1 <;> simp [h1])
  have h2 := h.2.1 (by decide)
  have h3 := h.2.2 ⟨1, 0, 1⟩ rfl
  exact ⟨h2.1, h2.2 (by simp), h3.1, h3.2⟩

end Librarian

namespace Librarian

/-- Result of one call to set_one_file_deletion_policy: the returned value
and the persisted state. -/
structure SetPolicyOutcome where
  result : Except ServerErrorKind Unit
  state : FileState
deriving Repr

/-- The instance loop of set_one_file_deletion_policy: skip instances that
fail the optional store filter; set the policy of the first one that
passes and stop (break — just one); if the loop finishes without a match
the for-else raises. Returns the updated row list and the touched row. -/
def setPolicyLoop (pol : Nat) (restrict : Option Nat) :
    List FileInstance → Option (List FileInstance × FileInstance)
  | [] => none
  | inst :: rest =>
      if restrictMismatch restrict inst then
        match setPolicyLoop pol restrict rest with
        | none => none
        | some (l, touched) => some (inst :: l, touched)
      else
        some (({inst with deletion_policy := pol}) :: rest,
              {inst with deletion_policy := pol})

/-- set_one_file_deletion_policy (librarian_server/file.py RPC endpoint, for
a known file): parse the policy string safely, flip the first matching
instance, raise if none matches, append the policy-change event and commit
(a commit failure rolls back and raises). -/
def set_one_file_deletion_policy (fileName : String) (st : FileState)
    (policyText : String) (restrict : Option Nat) (commitOk : Bool) : SetPolicyOutcome :=
  let pol := DeletionPolicy.parse_safe policyText
  match setPolicyLoop pol restrict st.instances with
  | none => ⟨Except.error ServerErrorKind.noInstances, st⟩
  | some (insts, touched) =>
      if commitOk then
        ⟨Except.ok (), ⟨insts, st.events ++ [make_policy_change_event fileName touched pol]⟩⟩
      else
        ⟨Except.error ServerErrorKind.commitFailed, st⟩

/-- The policy loop finds nothing when every instance fails the filter. -/
theorem setPolicyLoop_none (pol : Nat) (restrict : Option Nat) :
    ∀ l : List FileInstance, (∀ i ∈ l, restrictMismatch restrict i = true) →
      setPolicyLoop pol restrict l = none := by
  intro l
  induction l with
  | nil => intro _; rfl
  | cons a rest ih =>
      intro h
      have ha := h a (by simp)
      have hrest := ih (fun i hi => h i (by simp [hi]))
      simp [setPolicyLoop, ha, hrest]

/-- The policy loop touches exactly the first instance passing the filter. -/
theorem setPolicyLoop_first (pol : Nat) (restrict : Option Nat) :
    ∀ (pre : List FileInstance) (inst : FileInstance) (post : List FileInstance),
      (∀ j ∈ pre, restrictMismatch restrict j = true) →
      restrictMismatch restrict inst = false →
      setPolicyLoop pol restrict (pre ++ inst :: post)
        = some (pre ++ ({inst with deletion_policy := pol} :: post),
                {inst with deletion_policy := pol}) := by
  intro pre
  induction pre with
  | nil =>
      intro inst post _ hinst
      simp [setPolicyLoop, hinst]
  | cons a rest ih =>
      intro inst post hpre hinst
      have ha := hpre a (by simp)
      have hrest := ih inst post (fun j hj => hpre j (by simp [hj])) hinst
      simp [setPolicyLoop, ha, hrest]

/-- Claim C5: for a known file, set_one_file_deletion_policy errors and
mutates nothing when no instance matches the optional store filter;
otherwise exactly the first matching instance gets the (safely parsed)
requested policy, every other instance is untouched, and exactly one
instance_deletion_policy_changed event is appended in the same commit. -/
theorem set_policy_first_match (fileName : String) (st : FileState)
    (policyText : String) (restrict : Option Nat) (ck : Bool) :
    ((∀ i ∈ st.instances, restrictMismatch restrict i = true) →
        set_one_file_deletion_policy fileName st policyText restrict ck
          = ⟨Except.error ServerErrorKind.noInstances, st⟩)
    ∧ (∀ pre inst post, st.instances = pre ++ inst :: post →
        (∀ j ∈ pre, restrictMismatch restrict j = true) →
        restrictMismatch restrict inst = false →
        set_one_file_deletion_policy fileName st policyText restrict true
          = ⟨Except.ok (),
             ⟨pre ++ ({inst with deletion_policy := DeletionPolicy.parse_safe policyText} :: post),
              st.events ++ [make_policy_change_event fileName
                {inst with deletion_policy := DeletionPolicy.parse_safe policyText}
                (DeletionPolicy.parse_safe policyText)]⟩⟩) := by
  constructor
  · intro hall
    have h := setPolicyLoop_none (DeletionPolicy.parse_safe policyText) restrict
      st.instances hall
    simp [set_one_file_deletion_policy, h]
  · intro pre inst post hsplit hpre hinst
    have h := setPolicyLoop_first (DeletionPolicy.parse_safe policyText) restrict
      pre inst post hpre hinst
    simp [set_one_file_deletion_policy, hsplit, h]

/-- Closed-input instantiation of set_policy_first_match: two disallowed
instances, store filter selecting the second; only the second flips to
allowed and one event is appended. -/
theorem set_policy_first_match_witness :
    set_one_file_deletion_policy "f" ⟨[⟨1, "d", "f", 0⟩, ⟨2, "d", "f", 0⟩], []⟩
        "allowed" (some 2) true
      = ⟨Except.ok (),
         ⟨[⟨1, "d", "f", 0⟩, ⟨2, "d", "f", 1⟩],
          [make_policy_change_event "f" ⟨2, "d", "f", 1⟩ 1]⟩⟩ := by
  have h := (set_policy_first_match "f" ⟨[⟨1, "d", "f", 0⟩, ⟨2, "d", "f", 0⟩], []⟩
    "allowed" (some 2) true).2 [⟨1, "d", "f", 0⟩] ⟨2, "d", "f", 0⟩ [] rfl
    (by intro j hj; simp at hj; simp [hj]; decide) (by decide)
  simpa using h

end Librarian

namespace Librarian

/-- Exceptions the sysrsync transfer layer can raise, as seen by the
try/except in RsyncAsyncTransferManager.transfer: sysrsync.RsyncError is
the one class named in the except clause; otherError stands for every
other exception type reaching that frame. -/
inductive PyExc where
  | rsyncError
  | otherError
deriving DecidableEq, Repr

/-- RsyncAsyncTransferManager.transfer: run sysrsync on the pair
(runResult is the outcome of sysrsync.run); return True on success,
convert a raised sysrsync.RsyncError into False, and let any other
exception escape. -/
def RsyncAsyncTransferManager.transfer (runResult : Except PyExc Unit) : Except PyExc Bool :=
  match runResult with
  | Except.ok _ => Except.ok true
  | Except.error PyExc.rsyncError => Except.ok false
  | Except.error e => Except.error e

/-- The loop of RsyncAsyncTransferManager.batch_transfer: Python evaluates
copy_success = copy_success and self.transfer(...), so transfer is invoked
for a pair only while copy_success is still True. The second component of
the result instruments which pairs transfer was invoked on; an uncaught
exception aborts the loop and propagates. -/
def batchLoop (run : String × String → Except PyExc Unit) :
    Bool → List (String × String) → Except PyExc (Bool × List (String × String))
  | cs, [] => Except.ok (cs, [])
  | cs, p :: rest =>
      if cs then
        match RsyncAsyncTransferManager.transfer (run p) with
        | Except.ok b =>
            match batchLoop run b rest with
            | Except.ok (c, att) => Except.ok (c, p :: att)
            | Except.error e => Except.error e
        | Except.error e => Except.error e
      else
        batchLoop run false rest

/-- RsyncAsyncTransferManager.batch_transfer: iterate the pairs starting
from copy_success = True; the returned Bool is the copy_success stored in
transfer_complete and returned to the caller. -/
def RsyncAsyncTransferManager.batch_transfer (run : String × String → Except PyExc Unit)
    (paths : List (String × String)) : Except PyExc (Bool × List (String × String)) :=
  batchLoop run true paths

/-- A transfer layer that never raises anything but sysrsync.RsyncError,
described by the per-pair success Bool. -/
def runOfBool (perPair : String × String → Bool) (p : String × String) : Except PyExc Unit :=
  if perPair p then Except.ok () else Except.error PyExc.rsyncError

/-- Once copy_success is False the loop attempts nothing further. -/
theorem batchLoop_false (run : String × String → Except PyExc Unit) :
    ∀ l, batchLoop run false l = Except.ok (false, []) := by
  intro l
  induction l with
  | nil => rfl
  | cons p rest ih => simpa [batchLoop] using ih

end Librarian

namespace Librarian

/-- Claim C8 (amended): batch_transfer returns the logical AND of the
per-pair results (True exactly when every pair succeeded), but transfer is
invoked only on the longest all-successful leading run of pairs plus the
first failing pair; pairs after the first failure are never attempted. -/
theorem batch_transfer_and_shortcircuit (perPair : String × String → Bool)
    (paths : List (String × String)) :
    RsyncAsyncTransferManager.batch_transfer (runOfBool perPair) paths
      = Except.ok (paths.all perPair,
          paths.takeWhile perPair
            ++ (paths.drop (paths.takeWhile perPair).length).take 1) := by
  show batchLoop (runOfBool perPair) true paths = _
  induction paths with
  | nil => rfl
  | cons p rest ih =>
      by_cases hp : perPair p = true
      · simp [batchLoop, runOfBool, RsyncAsyncTransferManager.transfer, hp,
          List.takeWhile_cons, List.all_cons, ih]
      · simp [batchLoop, runOfBool, RsyncAsyncTransferManager.transfer, hp,
          List.takeWhile_cons, List.all_cons, batchLoop_false]

/-- Counterexample to claim C8 as stated: with two pairs of which the first
fails, the second pair is never attempted (Python short-circuits
copy_success and self.transfer(...)), so not every pair in the list is
attempted. -/
theorem batch_transfer_skips_after_failure :
    RsyncAsyncTransferManager.batch_transfer
        (runOfBool (fun p => p.1 == "ok")) [("bad", "r1"), ("ok", "r2")]
      = Except.ok (false, [("bad", "r1")])
    ∧ ([("bad", "r1")] : List (String × String)) ≠ [("bad", "r1"), ("ok", "r2")] := by
  constructor
  · rfl
  · simp

/-- As long as the transfer layer raises nothing but sysrsync.RsyncError,
the batch loop always returns a boolean outcome. -/
theorem batchLoop_no_other (run : String × String → Except PyExc Unit)
    (hno : ∀ p, run p ≠ Except.error PyExc.otherError) :
    ∀ (l : List (String × String)) (cs : Bool),
      ∃ res, batchLoop run cs l = Except.ok res := by
  intro l
  induction l with
  | nil => intro cs; exact ⟨(cs, []), rfl⟩
  | cons p rest ih =>
      intro cs
      cases cs
      · exact ⟨(false, []), batchLoop_false run (p :: rest)⟩
      · cases hrun : run p with
        | ok u =>
            obtain ⟨⟨c, att⟩, hres⟩ := ih true
            exact ⟨(c, p :: att),
              by simp [batchLoop, RsyncAsyncTransferManager.transfer, hrun, hres]⟩
        | error e =>
            cases e with
            | rsyncError =>
                exact ⟨(false, [p]),
                  by simp [batchLoop, RsyncAsyncTransferManager.transfer, hrun, batchLoop_false]⟩
            | otherError => exact absurd hrun (hno p)

/-- Claim C9 (amended): transfer converts a raised sysrsync.RsyncError into
the boolean False and success into True; as long as the transfer layer
raises nothing but sysrsync.RsyncError, no per-pair failure propagates an
exception past the batch boundary. Other exception types are not caught. -/
theorem transfer_catches_rsync_error (r : Except PyExc Unit)
    (run : String × String → Except PyExc Unit) (paths : List (String × String)) :
    (RsyncAsyncTransferManager.transfer r = Except.ok false
        ↔ r = Except.error PyExc.rsyncError)
    ∧ (RsyncAsyncTransferManager.transfer r = Except.ok true ↔ r = Except.ok ())
    ∧ ((∀ p, run p ≠ Except.error PyExc.otherError) →
        ∃ res, RsyncAsyncTransferManager.batch_transfer run paths = Except.ok res) := by
  refine ⟨?_, ?_, ?_⟩
  · rcases r with e | u
    · cases e <;> simp [RsyncAsyncTransferManager.transfer]
    · simp [RsyncAsyncTransferManager.transfer]
  · rcases r with e | u
    · cases e <;> simp [RsyncAsyncTransferManager.transfer]
    · simp [RsyncAsyncTransferManager.transfer]
  · intro hno
    exact batchLoop_no_other run hno paths true

/-- Closed-input instantiation of transfer_catches_rsync_error: a raised
sysrsync.RsyncError becomes False, and an all-failing batch over one pair
still returns a boolean rather than raising. -/
theorem transfer_catches_rsync_error_witness :
    (RsyncAsyncTransferManager.transfer (Except.error PyExc.rsyncError) = Except.ok false
        ↔ (Except.error PyExc.rsyncError : Except PyExc Unit)
            = Except.error PyExc.rsyncError)
    ∧ (RsyncAsyncTransferManager.transfer (Except.error PyExc.rsyncError) = Except.ok true
        ↔ (Except.error PyExc.rsyncError : Except PyExc Unit) = Except.ok ())
    ∧ ∃ res, RsyncAsyncTransferManager.batch_transfer
          (fun _ => Except.error PyExc.rsyncError) [("a", "b")] = Except.ok res := by
  have h := transfer_catches_rsync_error (Except.error PyExc.rsyncError)
    (fun _ => Except.error PyExc.rsyncError) [("a", "b")]
  exact ⟨h.1, h.2.1, h.2.2 (by intro p; simp)⟩

/-- Counterexample to claim C9 as stated: an exception that is not a
sysrsync.RsyncError is not converted into False inside transfer; it
propagates, and it propagates past the batch boundary as well. -/
theorem transfer_other_exception_propagates :
    RsyncAsyncTransferManager.transfer (Except.error PyExc.otherError)
        = Except.error PyExc.otherError
    ∧ RsyncAsyncTransferManager.transfer (Except.error PyExc.otherError)
        ≠ Except.ok false
    ∧ RsyncAsyncTransferManager.batch_transfer
        (fun _ => Except.error PyExc.otherError) [("a", "b")]
        = Except.error PyExc.otherError := by
  refine ⟨rfl, by simp [RsyncAsyncTransferManager.transfer], rfl⟩

end Librarian

namespace Librarian

/-- Python str.split on the dot separator, over character lists
(split always yields at least one, possibly empty, component). -/
def splitDot : List Char → List (List Char)
  | [] => [[]]
  | c :: rest =>
      if c = '.' then [] :: splitDot rest
      else
        match splitDot rest with
        | [] => [[c]]
        | g :: gs => (c :: g) :: gs

/-- Python str.join with the dot separator, over character lists. -/
def joinDot : List (List Char) → List Char
  | [] => []
  | [g] => g
  | g :: gs => g ++ '.' :: joinDot gs

/-- SQL LIKE pattern matching with the standard wildcard semantics:
percent matches any (possibly empty) run of characters, underscore matches
exactly one character, anything else matches itself. The fuel argument only
bounds recursion depth; every call consumes at least one character of the
pattern or of the string, so pattern.length + string.length + 1 is always
enough fuel. -/
def likeMatchF : Nat → List Char → List Char → Bool
  | 0, p, s => p.isEmpty && s.isEmpty
  | _ + 1, [], s => s.isEmpty
  | fuel + 1, c :: ps, s =>
      if c = '%' then
        likeMatchF fuel ps s
          || (match s with
              | [] => false
              | _ :: s2 => likeMatchF fuel (c :: ps) s2)
      else if c = '_' then
        match s with
        | [] => false
        | _ :: s2 => likeMatchF fuel ps s2
      else
        match s with
        | [] => false
        | d :: s2 => c == d && likeMatchF fuel ps s2

/-- SQL LIKE with canonical (always sufficient) fuel. -/
def sqlLike (pattern s : List Char) : Bool :=
  likeMatchF (pattern.length + s.length + 1) pattern s

/-- A row of the file table as seen by the obsid inference query: the name
and the (nullable) obsid column. -/
structure CatalogFile where
  name : String
  obsid : Option Int
deriving DecidableEq, Repr

/-- The zen.JD prefix of the hera inference mode: the first three
dot-separated components of the file name, joined by dots. -/
def heraPfx (name : String) : List Char :=
  joinDot ((splitDot name.toList).take 3)

/-- The rows selected by the hera inference query:
File.name LIKE prefix + dot-percent. -/
def heraMatches (catalog : List CatalogFile) (name : String) : List CatalogFile :=
  catalog.filter (fun f => sqlLike (heraPfx name ++ ['.', '%']) f.name.toList)

/-- The distinct obsid values of a query result (SQL GROUP BY File.obsid). -/
def distinctObsids : List (Option Int) → List (Option Int)
  | [] => []
  | o :: rest => if o ∈ rest then distinctObsids rest else o :: distinctObsids rest

/-- infer_file_obsid (librarian_server/file.py). mode none always refuses;
mode hera requires at least 4 dot-separated name components, selects
existing files whose name is LIKE the first-3-component prefix plus
dot-percent, and succeeds only when they carry exactly one distinct obsid;
the secret _testing mode derives a GPS id from components 1 and 2 through
an astropy time conversion, modelled by the opaque parameter jdToGps;
any other configured mode is a configuration error. -/
def infer_file_obsid (jdToGps : String → String → Int) (mode : String)
    (catalog : List CatalogFile) (name : String) : Except ServerErrorKind (Option Int) :=
  if mode = "none" then Except.error ServerErrorKind.refuseInference
  else if mode = "hera" then
    let bits := splitDot name.toList
    if bits.length < 4 then Except.error ServerErrorKind.weirdName
    else
      match distinctObsids ((heraMatches catalog name).map (fun f => f.obsid)) with
      | [o] => Except.ok o
      | _ => Except.error ServerErrorKind.ambiguousObsids
  else if mode = "_testing" then
    let bits := splitDot name.toList
    if bits.length < 4 then Except.error ServerErrorKind.weirdName
    else Except.ok (some (jdToGps (String.mk (bits.getD 1 [])) (String.mk (bits.getD 2 []))))
  else Except.error ServerErrorKind.unknownInferenceMode

end Librarian

namespace Librarian

/-- A lone percent pattern matches every string (given enough fuel). -/
theorem likeMatchF_star : ∀ (fuel : Nat) (s : List Char), s.length < fuel →
    likeMatchF fuel ['%'] s = true := by
  intro fuel
  induction fuel with
  | zero => intro s h; exact absurd h (Nat.not_lt_zero _)
  | succ f ih =>
      intro s hs
      cases s with
      | nil => cases f <;> rfl
      | cons x s2 =>
          have h2 : s2.length < f := by
            simp at hs
            omega
          simp [likeMatchF, ih s2 h2]

/-- On a wildcard-free prefix, LIKE (prefix ++ dot-percent) is exactly the
literal prefix test (prefix ++ dot). -/
theorem likeMatchF_literal (p : List Char) :
    ∀ (fuel : Nat) (s : List Char), (∀ c ∈ p, c ≠ '%' ∧ c ≠ '_') →
      p.length + 2 + s.length < fuel →
      likeMatchF fuel (p ++ ['.', '%']) s = decide ((p ++ ['.']) <+: s) := by
  induction p with
  | nil =>
      intro fuel s _ hf
      cases fuel with
      | zero => omega
      | succ f =>
          cases s with
          | nil => simp [likeMatchF]
          | cons d s2 =>
              have hst := likeMatchF_star f s2 (by
                simp at hf
                omega)
              by_cases hd : ('.' : Char) = d
              · subst hd
                simp [likeMatchF, hst, List.cons_prefix_cons]
              · simp [likeMatchF, hd, List.cons_prefix_cons, beq_iff_eq]
  | cons a p2 ih =>
      intro fuel s hp hf
      have ha := hp a (by simp)
      cases fuel with
      | zero => omega
      | succ f =>
          cases s with
          | nil => simp [likeMatchF, ha.1, ha.2]
          | cons d s2 =>
              have hrec := ih f s2 (fun c hc => hp c (by simp [hc])) (by
                simp at hf ⊢
                omega)
              by_cases had : a = d
              · subst had
                simp [likeMatchF, List.cons_append, ha.1, ha.2, hrec,
                  List.cons_prefix_cons]
              · simp [likeMatchF, List.cons_append, ha.1, ha.2, had,
                  List.cons_prefix_cons, beq_iff_eq]

end Librarian

namespace Librarian

/-- GROUP BY yields no rows exactly when the query matched no rows. -/
theorem distinctObsids_eq_nil : ∀ l, distinctObsids l = [] ↔ l = [] := by
  intro l
  induction l with
  | nil => simp [distinctObsids]
  | cons x rest ih =>
      by_cases hx : x ∈ rest
      · simp [distinctObsids, hx, ih]
        exact List.ne_nil_of_mem hx
      · simp [distinctObsids, hx]

/-- GROUP BY yields exactly one row o exactly when the query matched at
least one row and every matched row carries the value o. -/
theorem distinctObsids_singleton (o : Option Int) :
    ∀ l, distinctObsids l = [o] ↔ (l ≠ [] ∧ ∀ x ∈ l, x = o) := by
  intro l
  induction l with
  | nil => simp [distinctObsids]
  | cons x rest ih =>
      by_cases hx : x ∈ rest
      · have hne := List.ne_nil_of_mem hx
        rw [show distinctObsids (x :: rest) = distinctObsids rest from by
          simp [distinctObsids, hx]]
        rw [ih]
        constructor
        · rintro ⟨_, hall⟩
          exact ⟨by simp, by
            intro y hy
            rcases List.mem_cons.mp hy with h | h
            · rw [h]
              exact hall x hx
            · exact hall y h⟩
        · rintro ⟨_, hall⟩
          exact ⟨hne, fun y hy => hall y (by simp [hy])⟩
      · rw [show distinctObsids (x :: rest) = x :: distinctObsids rest from by
          simp [distinctObsids, hx]]
        constructor
        · intro h
          have hx0 : x = o := (List.cons_eq_cons.mp h).1
          have hrest : distinctObsids rest = [] := (List.cons_eq_cons.mp h).2
          have hrest2 : rest = [] := (distinctObsids_eq_nil rest).mp hrest
          subst hrest2
          exact ⟨by simp, by simp [hx0]⟩
        · rintro ⟨_, hall⟩
          have hx0 : x = o := hall x (by simp)
          have hrest : rest = [] := by
            by_contra hne2
            obtain ⟨y, hy⟩ := List.exists_mem_of_ne_nil rest hne2
            have hy0 : y = o := hall y (by simp [hy])
            rw [hx0] at hx
            rw [hy0] at hy
            exact hx hy
          subst hrest
          simp [distinctObsids, hx0]

end Librarian

namespace Librarian

/-- In hera mode with a well-formed name, inference succeeds with o exactly
when GROUP BY over the LIKE-matched rows yields the single value o. -/
theorem infer_hera_ok_iff (jdToGps : String → String → Int) (catalog : List CatalogFile)
    (name : String) (h4 : ¬ (splitDot name.toList).length < 4) (o : Option Int) :
    infer_file_obsid jdToGps "hera" catalog name = Except.ok o ↔
      distinctObsids ((heraMatches catalog name).map (fun f => f.obsid)) = [o] := by
  have h4d : ¬ (splitDot name.data).length < 4 := h4
  have heq : infer_file_obsid jdToGps "hera" catalog name
      = (match distinctObsids ((heraMatches catalog name).map (fun f => f.obsid)) with
         | [o1] => Except.ok o1
         | _ => Except.error ServerErrorKind.ambiguousObsids) := by
    simp [infer_file_obsid, h4d]
  rw [heq]
  rcases hD : distinctObsids ((heraMatches catalog name).map (fun f => f.obsid))
    with _ | ⟨o1, rest⟩
  · rw [hD]
    simp
  · cases rest with
    | nil =>
        rw [hD]
        simp
    | cons o2 rest2 =>
        rw [hD]
        simp

/-- Claim C6 (amended): inference in mode none always errors; in hera mode a
name with fewer than 4 dot components errors; otherwise an obsid is
returned exactly when the files whose names match the SQL LIKE pattern
(first-3-component prefix plus dot-percent, with percent and underscore in
the prefix acting as LIKE wildcards) carry exactly one distinct obsid, and
zero matches or two distinct candidate obsids always error; when the
prefix contains no wildcard characters the LIKE test coincides with
literally sharing the prefix; inference is deterministic. -/
theorem infer_obsid_spec (jdToGps : String → String → Int) (catalog : List CatalogFile)
    (name : String) :
    (infer_file_obsid jdToGps "none" catalog name
        = Except.error ServerErrorKind.refuseInference)
    ∧ ((splitDot name.toList).length < 4 →
        infer_file_obsid jdToGps "hera" catalog name
          = Except.error ServerErrorKind.weirdName)
    ∧ (4 ≤ (splitDot name.toList).length →
        (∀ o, infer_file_obsid jdToGps "hera" catalog name = Except.ok o ↔
          (heraMatches catalog name ≠ []
            ∧ ∀ f ∈ heraMatches catalog name, f.obsid = o))
        ∧ ((heraMatches catalog name = []
              ∨ ∃ f ∈ heraMatches catalog name, ∃ g ∈ heraMatches catalog name,
                  f.obsid ≠ g.obsid) →
            infer_file_obsid jdToGps "hera" catalog name
              = Except.error ServerErrorKind.ambiguousObsids))
    ∧ ((∀ c ∈ heraPfx name, c ≠ '%' ∧ c ≠ '_') → ∀ s : List Char,
        sqlLike (heraPfx name ++ ['.', '%']) s
          = decide ((heraPfx name ++ ['.']) <+: s))
    ∧ infer_file_obsid jdToGps "hera" catalog name
        = infer_file_obsid jdToGps "hera" catalog name := by
  refine ⟨rfl, ?_, ?_, ?_, rfl⟩
  · intro h4
    have h4d : (splitDot name.data).length < 4 := h4
    simp [infer_file_obsid, h4d]
  · intro h4
    have h4' : ¬ (splitDot name.toList).length < 4 := by omega
    constructor
    · intro o
      rw [infer_hera_ok_iff jdToGps catalog name h4' o]
      rw [distinctObsids_singleton]
      constructor
      · rintro ⟨hne, hall⟩
        refine ⟨fun hmn => hne (by simp [hmn]), ?_⟩
        intro f hf
        exact hall f.obsid (List.mem_map_of_mem _ hf)
      · rintro ⟨hne, hall⟩
        refine ⟨fun hmn => hne (by simpa using hmn), ?_⟩
        intro x hx
        obtain ⟨f, hf, hfo⟩ := List.mem_map.mp hx
        rw [← hfo]
        exact hall f hf
    · intro hcase
      have hnotsingle : ∀ o, ¬ distinctObsids ((heraMatches catalog name).map
          (fun f => f.obsid)) = [o] := by
        intro o hsing
        rw [distinctObsids_singleton] at hsing
        rcases hcase with hmn | ⟨f, hf, g, hg, hfg⟩
        · exact hsing.1 (by simp [hmn])
        · have hfo := hsing.2 f.obsid (List.mem_map_of_mem _ hf)
          have hgo := hsing.2 g.obsid (List.mem_map_of_mem _ hg)
          exact hfg (hfo.trans hgo.symm)
      have h4d : ¬ (splitDot name.data).length < 4 := h4'
      have heq : infer_file_obsid jdToGps "hera" catalog name
          = (match distinctObsids ((heraMatches catalog name).map (fun f => f.obsid)) with
             | [o1] => Except.ok o1
             | _ => Except.error ServerErrorKind.ambiguousObsids) := by
        simp [infer_file_obsid, h4d]
      rw [heq]
      rcases hD : distinctObsids ((heraMatches catalog name).map (fun f => f.obsid))
        with _ | ⟨o1, rest⟩
      · rw [hD]
      · cases rest with
        | nil => exact absurd hD (hnotsingle o1)
        | cons o2 rest2 => rw [hD]
  · intro hnw s
    exact likeMatchF_literal (heraPfx name) _ s hnw
      (by simp only [List.length_append, List.length_cons, List.length_nil]; omega)

/-- Closed-input instantiation of infer_obsid_spec: a catalog holding the
single file zen.2458.123.uv with obsid 42 lets the hera mode infer 42 for
that name, and a 1-component name errors. -/
theorem infer_obsid_spec_witness :
    infer_file_obsid (fun _ _ => 0) "hera" [⟨"zen.2458.123.uv", some 42⟩] "zen.2458.123.uv"
      = Except.ok (some 42)
    ∧ infer_file_obsid (fun _ _ => 0) "hera" [⟨"zen.2458.123.uv", some 42⟩] "zen"
      = Except.error ServerErrorKind.weirdName := by
  have h := infer_obsid_spec (fun _ _ => 0) [⟨"zen.2458.123.uv", some 42⟩] "zen.2458.123.uv"
  have h2 := infer_obsid_spec (fun _ _ => 0) [⟨"zen.2458.123.uv", some 42⟩] "zen"
  exact ⟨((h.2.2.1 (by decide)).1 (some 42)).mpr ⟨by decide, by decide⟩,
    h2.2.1 (by decide)⟩

/-- Counterexample to claim C6 as stated: the query uses SQL LIKE, so an
underscore inside the first three name components acts as a one-character
wildcard. For candidate name a_b.c.d.e no existing file shares the literal
prefix a_b.c.d followed by a dot, yet inference returns obsid 7 copied
from the LIKE-matched file axb.c.d.f instead of erring on zero
prefix-sharing candidates. -/
theorem infer_obsid_wildcard_cex :
    infer_file_obsid (fun _ _ => 0) "hera" [⟨"axb.c.d.f", some 7⟩] "a_b.c.d.e"
        = Except.ok (some 7)
    ∧ ([(⟨"axb.c.d.f", some 7⟩ : CatalogFile)].filter
        (fun f => decide ((heraPfx "a_b.c.d.e" ++ ['.']) <+: f.name.toList))) = [] := by
  constructor
  · rfl
  · rfl

end Librarian

namespace Librarian

/-- A JSON-ish Python value as occurring in file record dicts. -/
inductive PyVal where
  | pyStr (s : String)
  | pyInt (n : Int)
  | pyNone
deriving DecidableEq, Repr

/-- Dictionary lookup (None when the key is absent). -/
def dictGet (d : List (String × PyVal)) (k : String) : Option PyVal :=
  (d.find? (fun kv => kv.1 == k)).map (fun kv => kv.2)

/-- Modelled from the spec: required_arg (librarian_server/webutil.py, not
under src) fetches a required parameter and raises a ServerError when it is
absent or has the wrong type; string flavor. -/
def required_str (info : List (String × PyVal)) (k : String) : Except ServerErrorKind String :=
  match dictGet info k with
  | some (PyVal.pyStr s) => Except.ok s
  | some _ => Except.error ServerErrorKind.badArgType
  | none => Except.error ServerErrorKind.missingArg

/-- Modelled from the spec: required_arg, integer flavor. -/
def required_int (info : List (String × PyVal)) (k : String) : Except ServerErrorKind Int :=
  match dictGet info k with
  | some (PyVal.pyInt n) => Except.ok n
  | some _ => Except.error ServerErrorKind.badArgType
  | none => Except.error ServerErrorKind.missingArg

/-- An ASCII lowercase hexadecimal digit. -/
def isHexDigit (c : Char) : Bool :=
  c.isDigit || (('a' ≤ c) && (c ≤ 'f'))

/-- Modelled from the spec: normalize_and_validate_md5
(hera_librarian/utils.py, not under src) lowercases the digest and requires
canonical 32-character lowercase hex, raising otherwise. -/
def normalize_and_validate_md5 (md5 : String) : Except ServerErrorKind String :=
  let t := String.mk (md5.toList.map Char.toLower)
  if t.toList.length = 32 && t.toList.all isHexDigit then Except.ok t
  else Except.error ServerErrorKind.badMd5

/-- The File record (librarian_server/file.py table columns). A naive
datetime truncated to whole seconds is represented by the integer
calendar.timegm of its wall-clock fields, i.e. the Unix time obtained by
reading the fields as UTC; create_time_unix below is then the identity. -/
structure File where
  name : String
  type : String
  create_time : Int
  obsid : Option Int
  size : Int
  md5 : String
  source : String
deriving DecidableEq, Repr

/-- File.create_time_unix: calendar.timegm(create_time.timetuple()), the
Unix time of the stored fields read as UTC. -/
def create_time_unix (f : File) : Int := f.create_time

/-- Modelled from Python stdlib semantics: datetime.datetime.fromtimestamp
converts an epoch instant to local wall-clock fields, so under the naive
datetime representation above it adds the UTC offset of the process
timezone (tzOffset, in seconds; 0 when the host runs in UTC). -/
def datetime_fromtimestamp (tzOffset t : Int) : Int := t + tzOffset

/-- File.__init__ followed by File._validate: normalize and validate the
md5, reject names containing a slash, re-validate the normalized md5 and
reject negative sizes (the Python not-greater-equal form also catches NaN,
which the integer model cannot represent). -/
def File.init (name ftype : String) (obsid : Option Int) (source : String)
    (size : Int) (md5 : String) (create_time : Int) : Except ServerErrorKind File :=
  match normalize_and_validate_md5 md5 with
  | Except.error e => Except.error e
  | Except.ok md5n =>
      if name.toList.contains '/' then Except.error ServerErrorKind.badName
      else
        match normalize_and_validate_md5 md5n with
        | Except.error e => Except.error e
        | Except.ok _ =>
            if size < 0 then Except.error ServerErrorKind.badSize
            else Except.ok ⟨name, ftype, create_time, obsid, size, md5n, source⟩

/-- File.to_dict: the exported flat record; source is intentionally
omitted and a null obsid is explicitly included. -/
def File.to_dict (f : File) : List (String × PyVal) :=
  [("name", PyVal.pyStr f.name),
   ("type", PyVal.pyStr f.type),
   ("create_time", PyVal.pyInt (create_time_unix f)),
   ("obsid", match f.obsid with
             | some o => PyVal.pyInt o
             | none => PyVal.pyNone),
   ("size", PyVal.pyInt f.size),
   ("md5", PyVal.pyStr f.md5)]

/-- File.from_dict: read the required fields (obsid must be present but may
be null), then build the File with the caller-supplied source and
datetime.fromtimestamp of the transported Unix time. -/
def File.from_dict (tzOffset : Int) (source : String) (info : List (String × PyVal)) :
    Except ServerErrorKind File := do
  let name ← required_str info "name"
  let ftype ← required_str info "type"
  let ctime ← required_int info "create_time"
  let size ← required_int info "size"
  let md5 ← required_str info "md5"
  let obsid ← match dictGet info "obsid" with
    | none => Except.error ServerErrorKind.missingArg
    | some PyVal.pyNone => Except.ok (none : Option Int)
    | some (PyVal.pyInt n) => Except.ok (some n)
    | some _ => Except.error ServerErrorKind.badArgType
  File.init name ftype obsid source size md5 (datetime_fromtimestamp tzOffset ctime)

/-- A File record satisfying the table invariants: canonical md5, no slash
in the name, non-negative size. -/
def File.validRec (f : File) : Bool :=
  (match normalize_and_validate_md5 f.md5 with
   | Except.ok m => m == f.md5
   | Except.error _ => false)
  && !(f.name.toList.contains '/')
  && decide (0 ≤ f.size)

end Librarian

namespace Librarian

/-- Reduction of a successful Except bind, for unfolding from_dict. -/
theorem except_ok_bind {e a b : Type} (x : a) (f : a → Except e b) :
    (Except.ok x : Except e a) >>= f = f x := rfl

/-- Claim C7 (evaluated): for every valid File record, from_dict of to_dict
reconstructs every field except source (taken from the separate argument)
and except create_time, which comes back shifted by the UTC offset of the
process timezone because to_dict exports through calendar.timegm (UTC)
while from_dict imports through datetime.fromtimestamp (local time); the
claimed field-for-field round trip holds exactly when that offset is 0. -/
theorem from_dict_to_dict_roundtrip (f : File) (tzOffset : Int) (src2 : String)
    (hv : File.validRec f = true) :
    File.from_dict tzOffset src2 (File.to_dict f)
      = Except.ok { f with create_time := f.create_time + tzOffset, source := src2 }
    ∧ (tzOffset = 0 →
        File.from_dict 0 src2 (File.to_dict f) = Except.ok { f with source := src2 }) := by
  obtain ⟨nm, tp, ct, ob, sz, m5, sr⟩ := f
  rcases hnm : normalize_and_validate_md5 m5 with e | m
  · simp [File.validRec, hnm] at hv
  · simp [File.validRec, hnm] at hv
    obtain ⟨⟨hm, hslash⟩, hsz⟩ := hv
    subst hm
    have hsz2 : ¬ sz < 0 := by omega
    have hfirst : File.from_dict tzOffset src2
        (File.to_dict ⟨nm, tp, ct, ob, sz, m, sr⟩)
        = Except.ok ⟨nm, tp, ct + tzOffset, ob, sz, m, src2⟩ := by
      rcases ob with _ | o
      · simp [File.from_dict, File.to_dict, required_str, required_int, dictGet,
          create_time_unix, datetime_fromtimestamp, File.init, hnm, hslash, hsz2,
          except_ok_bind]
      · simp [File.from_dict, File.to_dict, required_str, required_int, dictGet,
          create_time_unix, datetime_fromtimestamp, File.init, hnm, hslash, hsz2,
          except_ok_bind]
    refine ⟨hfirst, ?_⟩
    intro h0
    subst h0
    simpa using hfirst

/-- Closed-input instantiation of from_dict_to_dict_roundtrip: a valid file
with create_time 1000 round trips to create_time 4600 on a host at UTC+1
(divergence), and round trips exactly on a UTC host. -/
theorem from_dict_to_dict_roundtrip_witness :
    File.from_dict 3600 "s2"
        (File.to_dict ⟨"zen.1.2.uv", "uv", 1000, some 42, 1024,
          "d41d8cd98f00b204e9800998ecf8427e", "src"⟩)
      = Except.ok ⟨"zen.1.2.uv", "uv", 4600, some 42, 1024,
          "d41d8cd98f00b204e9800998ecf8427e", "s2"⟩
    ∧ ((3600 : Int) = 0 →
        File.from_dict 0 "s2"
            (File.to_dict ⟨"zen.1.2.uv", "uv", 1000, some 42, 1024,
              "d41d8cd98f00b204e9800998ecf8427e", "src"⟩)
          = Except.ok ⟨"zen.1.2.uv", "uv", 1000, some 42, 1024,
              "d41d8cd98f00b204e9800998ecf8427e", "s2"⟩) := by
  have h := from_dict_to_dict_roundtrip
    ⟨"zen.1.2.uv", "uv", 1000, some 42, 1024,
      "d41d8cd98f00b204e9800998ecf8427e", "src"⟩ 3600 "s2" (by decide)
  exact ⟨h.1, fun hz => absurd hz (by decide)⟩

end Librarian
